import Mathlib

/-!
Verification of the airtable-connector repository.

This file shallowly embeds the core of the repository
(`lib/airtable.py`, `load.py`, `send.py`) in Lean and proves the
specification's claims about it.  Python dicts are modelled as
association lists with unique keys, JSON values as an inductive
`Value` type, stateful warehouse operations as explicit state passing
over an association list of tables, and fallible Python code
(exceptions) as `Option`/`Except` results.
-/

set_option autoImplicit false

namespace AirtableConnector

/-- JSON-like values as they appear in Airtable API payloads and
warehouse rows (Python strings, numbers, booleans, lists, nested
objects, and `None`). Numbers are modelled as rationals. -/
inductive Value where
  | null
  | bool (b : Bool)
  | num (q : ℚ)
  | str (s : String)
  | arr (elems : List Value)
  | obj (fields : List (String × Value))

/-- A Python dict with string keys, as an association list (first
binding of a key wins; dicts built by the code keep keys unique). -/
abbrev PyDict := List (String × Value)

/-- `d.get(k)` / `d[k]` on a Python dict: the first binding of `k`. -/
def alookup {α : Type} (k : String) : List (String × α) → Option α
  | [] => none
  | (k', v) :: rest => if k' = k then some v else alookup k rest

/-- Key removal, as performed by Python `dict.pop(k)` on the dict. -/
def dictErase {α : Type} (k : String) (d : List (String × α)) : List (String × α) :=
  d.filter (fun p => p.1 ≠ k)

/-- Python `d.update(upd)`: existing keys are overwritten in place
(keeping their position), new keys are appended in `upd` order. -/
def dictUpdate {α : Type} (d upd : List (String × α)) : List (String × α) :=
  d.map (fun p => (p.1, (alookup p.1 upd).getD p.2)) ++
    upd.filter (fun p => (alookup p.1 d).isNone)

/-! ## load.py: record shaping (`process_record`, `rename_column`,
`maybe_jsonify`, `result_to_df`) -/

/-- `process_record` (load.py): pop the nested `fields` dict off the
record and merge it into the record's top level.  (A non-dict `fields`
value would raise in Python; Airtable always returns an object, so it
is modelled as the empty dict.) -/
def process_record (record : PyDict) : PyDict :=
  let fields : PyDict :=
    match alookup "fields" record with
    | some (Value.obj fs) => fs
    | _ => []
  dictUpdate (dictErase "fields" record) fields

/-- `process_records` (load.py). -/
def process_records (records : List PyDict) : List PyDict :=
  records.map process_record

/-- Characters the first regex in `rename_column` leaves alone
(the class complementary to the pattern of disallowed characters). -/
def isColChar (c : Char) : Bool :=
  ('a' ≤ c ∧ c ≤ 'z') ∨ ('0' ≤ c ∧ c ≤ '9') ∨ c = '_'

/-- Collapse every run of consecutive underscores to a single
underscore, given the previous emitted character. -/
def collapseUnderscoresGo (prev : Char) : List Char → List Char
  | [] => []
  | c :: rest =>
    if prev = '_' ∧ c = '_' then collapseUnderscoresGo c rest
    else c :: collapseUnderscoresGo c rest

/-- Collapse every run of consecutive underscores to a single one,
modelling the second regex substitution in `rename_column`. -/
def collapseUnderscores : List Char → List Char
  | [] => []
  | c :: rest => c :: collapseUnderscoresGo c rest

/-- `rename_column` (load.py): lower-case the name, replace every run
of characters outside lowercase alphanumerics/underscore with a single
underscore, then collapse runs of underscores to one.  (Replacing each
disallowed character with an underscore and then collapsing underscore
runs yields the same string as the two regex substitutions.) -/
def rename_column (name : String) : String :=
  String.mk (collapseUnderscores
    ((name.data.map Char.toLower).map (fun c => if isColChar c then c else '_')))

/-- A minimal JSON serializer modelling `json.dumps` for the values
Airtable returns.  String escaping covers quotes and backslashes;
non-integer numbers are rendered as rationals (the exact float
rendering is irrelevant to every claim, which treat serialized
strings as opaque). -/
def jsonEscape (s : String) : String :=
  String.mk (s.data.flatMap (fun c =>
    if c = '"' ∨ c = '\\' then ['\\', c] else [c]))

mutual

def jsonDumps : Value → String
  | Value.null => "null"
  | Value.bool true => "true"
  | Value.bool false => "false"
  | Value.num q => if q.den = 1 then toString q.num else toString q
  | Value.str s => "\"" ++ jsonEscape s ++ "\""
  | Value.arr xs => "[" ++ jsonDumpsList xs ++ "]"
  | Value.obj fs => "\x7b" ++ jsonDumpsObj fs ++ "\x7d"

def jsonDumpsList : List Value → String
  | [] => ""
  | [v] => jsonDumps v
  | v :: rest => jsonDumps v ++ ", " ++ jsonDumpsList rest

def jsonDumpsObj : List (String × Value) → String
  | [] => ""
  | [(k, v)] => "\"" ++ jsonEscape k ++ "\": " ++ jsonDumps v
  | (k, v) :: rest =>
      "\"" ++ jsonEscape k ++ "\": " ++ jsonDumps v ++ ", " ++ jsonDumpsObj rest

end

/-- `maybe_jsonify` (load.py): leave missing cells (`NaN`) and `None`
alone, serialize any other value as a JSON string (lists and dicts are
never treated as null). -/
def maybe_jsonify : Option Value → Option Value
  | none => none
  | some Value.null => some Value.null
  | some v => some (Value.str (jsonDumps v))

/-- Field types whose columns `result_to_df` passes through
`maybe_jsonify`. -/
def structuredFieldTypes : List String :=
  ["multipleSelects", "multilineText", "formula"]

/-- A pandas DataFrame, abstracted to its column names and its rows
(one `Option Value` cell per column; `none` is a missing cell). -/
structure Df where
  columns : List String
  rows : List (List (Option Value))

/-- The `df[field_name] = df[field_name].apply(maybe_jsonify)` step:
apply `maybe_jsonify` to every cell in the named column. -/
def applyJsonify (columns : List String) (rows : List (List (Option Value)))
    (fieldName : String) : List (List (Option Value)) :=
  rows.map (fun row =>
    (columns.zip row).map (fun cv =>
      if cv.1 = fieldName then maybe_jsonify cv.2 else cv.2))

/-- `result_to_df` (load.py): build a frame over the columns
`id`, the FieldInfo keys in order, `createdTime`; one row per
processed record; serialize structured field types as JSON strings;
then canonicalize the column names with `rename_column`.
(`convert_dtypes` only adjusts pandas dtypes and is a no-op here.) -/
def result_to_df (data : List PyDict) (field_info : List (String × String)) : Df :=
  let columns := ["id"] ++ field_info.map Prod.fst ++ ["createdTime"]
  let rows := (process_records data).map (fun r => columns.map (fun c => alookup c r))
  let rows := field_info.foldl (fun rows ft =>
    if ft.2 ∈ structuredFieldTypes then applyJsonify columns rows ft.1 else rows) rows
  ⟨columns.map rename_column, rows⟩

/-- A Python exception raised by unguarded code (the `TypeError` from
`in` on a non-container, the `AttributeError` from `.get` on a
non-dict, the `TypeError` from `date.isoformat` with an argument). -/
inductive PyError where
  | typeError (msg : String)
  | attributeError (msg : String)
  deriving DecidableEq

/-! ## lib/airtable.py: `AirtableClient.request` (rate limiting and 429 backoff) -/

/-- `wait = math.ceil(wait * 1.5)`: for an integral wait this is
`⌈3w/2⌉` (the multiplication by 1.5 is exact in floating point for
these magnitudes). -/
def nextWait (wait : Nat) : Nat := (3 * wait + 1) / 2

/-- The retry loop of `AirtableClient.request`, driven by the sequence
of HTTP status codes the server would answer on successive attempts
(one list entry per attempt; `none` means the supplied list was too
short to reach the loop's exit, which never happens in the theorems).
Returns the backoff sleeps performed and the final response status. -/
def requestLoop : List Nat → Nat → Nat → Option (List Nat × Nat)
  | [], _, _ => none
  | status :: rest, retries, wait =>
    if status ≠ 429 ∨ retries = 3 then some ([], status)
    else
      match requestLoop rest (retries + 1) (nextWait wait) with
      | none => none
      | some (ws, final) => some (wait :: ws, final)

/-- The outcome of `request`: `raise_for_status` raises for a 4xx/5xx
final response, otherwise the response is returned. -/
inductive ReqOutcome where
  | raised (status : Nat)
  | ok (status : Nat)

/-- Observable trace of one `request` call: the backoff sleeps, the
throttle sleep (`1 / requests_per_second_limit`), if executed, and the
outcome. -/
structure RequestTrace where
  backoffSleeps : List Nat
  throttleSleep : Option ℚ
  outcome : ReqOutcome

/-- `AirtableClient.request`, as a function of the statuses of the
successive attempts: run the 429 retry loop starting at `retries = 0`,
`wait = 30`; then `raise_for_status`; the throttle sleep runs only if
no exception was raised. -/
def request (statuses : List Nat) (rps : ℚ) : Option RequestTrace :=
  match requestLoop statuses 0 30 with
  | none => none
  | some (ws, s) =>
    if 400 ≤ s ∧ s ≤ 599 then some ⟨ws, none, ReqOutcome.raised s⟩
    else some ⟨ws, some (1 / rps), ReqOutcome.ok s⟩

/-! ## lib/airtable.py: `iter_chunks` error classification -/

/-- The `LIST_RECORDS_ITERATOR_NOT_AVAILABLE` code. -/
def ITERATOR_CODE : String := "LIST_RECORDS_ITERATOR_NOT_AVAILABLE"

/-- An HTTP response: status code and the parsed JSON body — `none`
when the body does not parse as JSON (`response.json()` raises), and
`some v` for any JSON value `v`, which need not be an object. -/
structure HttpResponse where
  statusCode : Nat
  jsonBody : Option Value

/-- Whether the first list is a prefix of the second. -/
def charsPrefix : List Char → List Char → Bool
  | [], _ => true
  | _ :: _, [] => false
  | a :: as, b :: bs => a = b && charsPrefix as bs

/-- Whether the first list occurs as a contiguous sublist of the
second (Python's substring test `needle in s`). -/
def charsSubstr (needle : List Char) : List Char → Bool
  | [] => needle.isEmpty
  | c :: rest => charsPrefix needle (c :: rest) || charsSubstr needle rest

/-- Python's `needle in x`: substring test on strings, key-membership
on dicts, element-membership on lists; on any other value (`None`,
numbers, booleans) `in` raises `TypeError`. -/
def pyContains (needle : String) : Value → Except PyError Bool
  | Value.str s => Except.ok (charsSubstr needle.data s.data)
  | Value.obj fs => Except.ok (fs.any (fun p => p.1 = needle))
  | Value.arr xs => Except.ok (xs.any (fun v =>
      match v with
      | Value.str s => s = needle
      | _ => false))
  | _ => Except.error (PyError.typeError "argument is not iterable")

/-- Python's `data.get(k, default)`: a dict lookup with default; on a
non-dict JSON value (list, string, number, ...) `.get` raises
`AttributeError`. -/
def dataGet (data : Value) (k : String) (default : Value) : Except PyError Value :=
  match data with
  | Value.obj fs => Except.ok ((alookup k fs).getD default)
  | _ => Except.error (PyError.attributeError "object has no attribute get")

/-- `is_iterator_error` (lib/airtable.py).  Only `response.json()` is
inside the `try`: a body that fails to parse is swallowed and the
function returns `False`, but the unguarded
`ITERATOR_CODE in data.get("error", "")` can itself raise —
`AttributeError` when the parsed body is not an object, `TypeError`
when the `error` entry is not a string/dict/list — and that exception
propagates. -/
def is_iterator_error (resp : HttpResponse) : Except PyError Bool :=
  if resp.statusCode = 422 then
    match resp.jsonBody with
    | none => Except.ok false
    | some data =>
      match dataGet data "error" (Value.str "") with
      | Except.error e => Except.error e
      | Except.ok err => pyContains ITERATOR_CODE err
  else Except.ok false

/-- Outcome of one pagination step of `iter_chunks`. -/
inductive FetchOutcome where
  | iteratorInvalidated
  | httpError (status : Nat)
  | pyException (e : PyError)
  | success (body : Option Value)

/-- One step of `iter_chunks`: `request` raises `HTTPError` for a
4xx/5xx response, which `iter_chunks` re-raises as
`AirtableIteratorError` when `is_iterator_error` returns true and
re-raises unchanged when it returns false; an exception raised inside
`is_iterator_error` itself propagates instead of either.  Otherwise
the body is consumed. -/
def iter_chunks_step (resp : HttpResponse) : FetchOutcome :=
  if 400 ≤ resp.statusCode ∧ resp.statusCode ≤ 599 then
    match is_iterator_error resp with
    | Except.error e => FetchOutcome.pyException e
    | Except.ok true => FetchOutcome.iteratorInvalidated
    | Except.ok false => FetchOutcome.httpError resp.statusCode
  else FetchOutcome.success resp.jsonBody

/-! ## lib/airtable.py: `read` (restart-on-invalidation loop) -/

/-- The outcome of one full drain of `iter_chunks` inside `read`:
either the complete ordered record list, or an
`AirtableIteratorError` raised mid-scan. -/
inductive ScanResult where
  | ok (records : List PyDict)
  | iterErr

/-- The `while True` loop of `AirtableClient.read`, driven by the
outcomes of successive scan attempts.  The attempt index always equals
`restarts`, which increments on every caught error; at `restarts = 3`
the error is re-raised.  `none` means the attempt list was too short
to reach an exit. -/
def readGo : List ScanResult → Nat → Option (Except Unit (List PyDict))
  | [], _ => none
  | ScanResult.ok records :: _, _ => some (Except.ok records)
  | ScanResult.iterErr :: rest, restarts =>
    if restarts = 3 then some (Except.error ())
    else readGo rest (restarts + 1)

/-- `AirtableClient.read`: the restart loop started with
`restarts = 0`. -/
def read (attempts : List ScanResult) : Option (Except Unit (List PyDict)) :=
  readGo attempts 0

/-! ## lib/airtable.py: `chunked`, payload builders, `write` -/

/-- The slicing loop of `chunked`, one iteration per element of
`range(0, len(seq), n)` (that range has `⌈len(seq) / n⌉` elements,
passed here as the iteration count). -/
def chunkedGo {α : Type} (n : Nat) : Nat → List α → List (List α)
  | 0, _ => []
  | count + 1, l => l.take n :: chunkedGo n count (l.drop n)

/-- `chunked` (lib/airtable.py): `seq[i : i + n]` for
`i in range(0, len(seq), n)`.  (Python raises for `n = 0`; the client
always passes its positive `write_chunk_size`.) -/
def chunked {α : Type} (seq : List α) (n : Nat) : List (List α) :=
  chunkedGo n ((seq.length + n - 1) / n) seq

/-- One record envelope inside a write payload: an optional `id`
entry and the `fields` object. -/
structure RecordEnvelope where
  id : Option Value
  fields : PyDict

/-- A write request payload: the record envelopes and the `typecast`
flag. -/
structure Payload where
  records : List RecordEnvelope
  typecast : Bool

/-- One HTTP request issued by `write`. -/
structure Request where
  method : String
  payload : Payload

/-- `build_append_payload` (lib/airtable.py): wrap each record as
`\x7b"fields": record\x7d` with `typecast: True`.  The second
component is the state of the caller's record dicts after the call
(unchanged in append mode). -/
def build_append_payload (records : List PyDict) : Option (Payload × List PyDict) :=
  some (⟨records.map (fun r => ⟨none, r⟩), true⟩, records)

/-- The envelopes of `build_update_payload`:
`\x7b"id": record.pop("id"), "fields": record\x7d` — the `id` is
popped from the caller's dict, so the envelope's `fields` is the
record without its `id`.  A record without an `id` raises `KeyError`
(`none`). -/
def build_update_envelopes : List PyDict → Option (List RecordEnvelope)
  | [] => some []
  | r :: rs =>
    match alookup "id" r with
    | none => none
    | some v =>
      match build_update_envelopes rs with
      | none => none
      | some es => some (⟨some v, dictErase "id" r⟩ :: es)

/-- `build_update_payload` (lib/airtable.py).  The second component is
the state of the caller's record dicts after the call: `pop` mutates
them in place, so each has lost its `id` key. -/
def build_update_payload (records : List PyDict) : Option (Payload × List PyDict) :=
  match build_update_envelopes records with
  | none => none
  | some es => some (⟨es, true⟩, es.map RecordEnvelope.fields)

/-- The per-chunk loop of `write`: build a payload per chunk and issue
one request per chunk; a failed payload build aborts.  Also tracks the
post-call state of the records of every chunk processed. -/
def writeChunks (method : String)
    (buildPayload : List PyDict → Option (Payload × List PyDict)) :
    List (List PyDict) → Option (List Request × List PyDict)
  | [] => some ([], [])
  | c :: cs =>
    match buildPayload c with
    | none => none
    | some (p, c') =>
      match writeChunks method buildPayload cs with
      | none => none
      | some (reqs, post) => some (⟨method, p⟩ :: reqs, c' ++ post)

/-- `AirtableClient.write`: split `records` into chunks of
`chunkSize` and submit each as a `PATCH` (update) or `POST` (append)
request.  Returns the issued requests and the post-call state of the
caller's record dicts. -/
def write (records : List PyDict) (chunkSize : Nat) (update : Bool) :
    Option (List Request × List PyDict) :=
  if update then writeChunks "patch" build_update_payload (chunked records chunkSize)
  else writeChunks "post" build_append_payload (chunked records chunkSize)

/-! ## send.py: `row_to_record` -/

/-- A value in a warehouse query-result row, covering the Python types
`row_to_record` distinguishes: SQL NULL (`None`), strings,
`decimal.Decimal` (exact, modelled as a rational), `datetime.datetime`
and `datetime.date` (split into components), integers and booleans. -/
inductive DbValue where
  | null
  | str (s : String)
  | decimal (q : ℚ)
  | datetime (year month day hour minute second : Nat)
  | date (year month day : Nat)
  | int (n : Int)
  | boolean (b : Bool)

/-- A value placed in a record sent to Airtable.  `float` carries
the rational value of `float(Decimal)` (binary rounding of the float
is not modelled; no claim inspects it). -/
inductive AirtableValue where
  | null
  | float (q : ℚ)
  | str (s : String)
  | strList (items : List String)
  | int (n : Int)
  | boolean (b : Bool)

/-- Zero-pad to (at least) two digits, as `%m`/`%d`/`%H`/`%M`/`%S`. -/
def pad2 (n : Nat) : String :=
  if n < 10 then "0" ++ toString n else toString n

/-- Zero-pad to (at least) four digits, as `%Y`. -/
def pad4 (n : Nat) : String :=
  if n < 10 then "000" ++ toString n
  else if n < 100 then "00" ++ toString n
  else if n < 1000 then "0" ++ toString n
  else toString n

/-- Python whitespace stripped by `str.strip()`. -/
def isSpaceChar (c : Char) : Bool :=
  c = ' ' ∨ c = '\t' ∨ c = '\n' ∨ c = '\r' ∨ c = '\x0b' ∨ c = '\x0c'

/-- `str.strip()`. -/
def pyStrip (s : String) : String :=
  String.mk (((s.data.dropWhile isSpaceChar).reverse.dropWhile isSpaceChar).reverse)

/-- `str.split(sep)` for a single-character separator. -/
def pySplitGo (sep : Char) : List Char → List Char → List (List Char)
  | [], acc => [acc.reverse]
  | c :: rest, acc =>
    if c = sep then acc.reverse :: pySplitGo sep rest []
    else pySplitGo sep rest (c :: acc)

/-- `str.split(sep)` for a single-character separator. -/
def pySplit (sep : Char) (s : String) : List String :=
  (pySplitGo sep s.data []).map String.mk

/-- `str.endswith(suffix)`. -/
def pyEndsWith (suffix s : String) : Bool :=
  charsPrefix suffix.data.reverse s.data.reverse

/-- The `isinstance` chain in `row_to_record` applied to one non-null
value drawn from column `query_name`: `Decimal` to `float`, `datetime`
through `strftime("%m/%d/%Y %H:%M:%S")`, `date` through
`isoformat("%m/%d/%Y")` — which raises `TypeError`, since
`date.isoformat` takes no arguments — and a non-blank string from a
column named `*_list` split on `|` into stripped items.  Any other
value passes through unchanged. -/
def convert_value (query_name : String) : DbValue → Except PyError AirtableValue
  | DbValue.decimal q => Except.ok (AirtableValue.float q)
  | DbValue.datetime y mo d h mi s =>
      Except.ok (AirtableValue.str
        (pad2 mo ++ "/" ++ pad2 d ++ "/" ++ pad4 y ++ " " ++
          pad2 h ++ ":" ++ pad2 mi ++ ":" ++ pad2 s))
  | DbValue.date _ _ _ =>
      Except.error (PyError.typeError "isoformat() takes no arguments")
  | DbValue.str s =>
      if pyStrip s ≠ "" ∧ pyEndsWith "_list" query_name then
        Except.ok (AirtableValue.strList ((pySplit '|' s).map pyStrip))
      else Except.ok (AirtableValue.str s)
  | DbValue.int n => Except.ok (AirtableValue.int n)
  | DbValue.boolean b => Except.ok (AirtableValue.boolean b)
  | DbValue.null => Except.ok AirtableValue.null

/-- `row.get(query_name)` with SQL NULL (Python `None`) treated as
absent, as by the `value is not None` guard. -/
def getNonNull (row : List (String × DbValue)) (q : String) : Option DbValue :=
  match alookup q row with
  | some DbValue.null => none
  | o => o

/-- The inner candidate loop of `row_to_record`: the first candidate
column whose value is non-null, together with its column name. -/
def firstCandidate (row : List (String × DbValue)) :
    List String → Option (String × DbValue)
  | [] => none
  | q :: qs =>
    match getNonNull row q with
    | some v => some (q, v)
    | none => firstCandidate row qs

/-- `row_to_record` (send.py): for each destination field, pick the
first candidate column with a non-null value, convert it, and bind it
under the destination field name; fields with no non-null candidate
are omitted.  A conversion error (the `date` case) propagates. -/
def row_to_record (row : List (String × DbValue)) :
    List (String × List String) → Except PyError (List (String × AirtableValue))
  | [] => Except.ok []
  | (aname, qnames) :: rest =>
    match firstCandidate row qnames with
    | none => row_to_record row rest
    | some (q, v) =>
      match convert_value q v with
      | Except.error e => Except.error e
      | Except.ok av =>
        match row_to_record row rest with
        | Except.error e => Except.error e
        | Except.ok recs => Except.ok ((aname, av) :: recs)

/-! ## load.py: the warehouse model and `_load_chunks` -/

/-- A warehouse table: its rows. -/
abbrev Table := List (List (Option Value))

/-- The warehouse: an association list from schema-qualified table
name to table contents. -/
abbrev Warehouse := List (String × Table)

/-- The contents of a table, if it exists. -/
def whLookup (wh : Warehouse) (name : String) : Option Table :=
  alookup name wh

/-- `table_exists` (load.py), via `describe table`. -/
def table_exists (wh : Warehouse) (name : String) : Bool :=
  (whLookup wh name).isSome

/-- `drop table if exists`. -/
def whDropIfExists (wh : Warehouse) (name : String) : Warehouse :=
  wh.filter (fun p => p.1 ≠ name)

/-- `materialize` with `if_exists="append"` (pandas `to_sql`): create
the table if missing, else append the rows. -/
def whAppend (wh : Warehouse) (name : String) (rows : Table) : Warehouse :=
  match whLookup wh name with
  | some _ => wh.map (fun p => if p.1 = name then (p.1, p.2 ++ rows) else p)
  | none => wh ++ [(name, rows)]

/-- `materialize` with the default `if_exists="fail"`: create the
table, failing if it already exists. -/
def whCreateFail (wh : Warehouse) (name : String) (rows : Table) :
    Except String Warehouse :=
  if table_exists wh name then Except.error "table already exists"
  else Except.ok (wh ++ [(name, rows)])

/-- `delete from`: empty the table's rows (error if it is missing). -/
def whDeleteFrom (wh : Warehouse) (name : String) : Except String Warehouse :=
  if table_exists wh name then
    Except.ok (wh.map (fun p => if p.1 = name then (p.1, []) else p))
  else Except.error "table does not exist"

/-- `alter table a swap with b`: atomically exchange the contents of
the two tables (error if either is missing). -/
def whSwap (wh : Warehouse) (a b : String) : Except String Warehouse :=
  match whLookup wh a, whLookup wh b with
  | some ta, some tb =>
    Except.ok (wh.map (fun p =>
      if p.1 = a then (a, tb) else if p.1 = b then (b, ta) else p))
  | _, _ => Except.error "table does not exist"

/-- `drop table` (no `if exists`). -/
def whDrop (wh : Warehouse) (name : String) : Except String Warehouse :=
  if table_exists wh name then Except.ok (wh.filter (fun p => p.1 ≠ name))
  else Except.error "table does not exist"

/-- `alter table a rename to b` (error if `a` is missing or `b`
exists). -/
def whRename (wh : Warehouse) (a b : String) : Except String Warehouse :=
  if table_exists wh a then
    if table_exists wh b then Except.error "target exists"
    else Except.ok (wh.map (fun p => if p.1 = a then (b, p.2) else p))
  else Except.error "table does not exist"

/-- `parse_table_name` (load.py): split on dots into an optional
database, a schema, and a table name. -/
def parse_table_name (name : String) : Option (Option String × String × String) :=
  match pySplit '.' name with
  | [database, schema, table] => some (some database, schema, table)
  | [schema, table] => some (none, schema, table)
  | _ => none

/-- `schema = f"..."` in `_load_chunks`: prefix the database when one
was given. -/
def qualifySchema (database : Option String) (schema : String) : String :=
  match database with
  | some d => d ++ "." ++ schema
  | none => schema

/-- The chunk loop of `_load_chunks`: shape each chunk with
`result_to_df`, append it into the temporary table, and accumulate
the row count. -/
def loadLoop (fi : List (String × String)) (key : String) :
    Warehouse → List (List PyDict) → Warehouse × Nat
  | wh, [] => (wh, 0)
  | wh, c :: cs =>
    let rows := (result_to_df c fi).rows
    let r := loadLoop fi key (whAppend wh key rows) cs
    (r.1, rows.length + r.2)

/-- The rows `_load_chunks` loads: the shaped rows of every chunk, in
order. -/
def loadedRows (chunks : List (List PyDict)) (fi : List (String × String)) : Table :=
  (chunks.map (fun c => (result_to_df c fi).rows)).flatten

/-- The `count == 0` step of `_load_chunks`: materialize the (absent)
temp table by creating it with one throwaway all-null row and deleting
that row, so a correctly-shaped empty table exists. -/
def materialize_empty (wh : Warehouse) (tmpKey : String)
    (field_info : List (String × String)) : Except String Warehouse :=
  let nullsDf := result_to_df [] field_info
  match whCreateFail wh tmpKey [nullsDf.columns.map (fun _ => none)] with
  | Except.error e => Except.error e
  | Except.ok wh3 => whDeleteFrom wh3 tmpKey

/-- The cutover step of `_load_chunks`: if the final table exists,
atomically swap temp and final and drop the now-temp-named old table;
otherwise rename the temp table to the final name. -/
def cutover (wh : Warehouse) (tmpKey finalKey : String) : Except String Warehouse :=
  if table_exists wh finalKey then
    match whSwap wh tmpKey finalKey with
    | Except.error e => Except.error e
    | Except.ok wh5 => whDrop wh5 tmpKey
  else whRename wh tmpKey finalKey

/-- `_load_chunks` (load.py): parse the destination, drop a leftover
temp table, append every shaped chunk into the temp table, materialize
an empty temp table via a throwaway null row when no rows were
appended, then cut the temp table over to the final name (swap + drop
when the final table exists, rename otherwise).  Returns the final
warehouse state and the row count. -/
def _load_chunks (wh : Warehouse) (chunks : List (List PyDict))
    (field_info : List (String × String)) (destination : String) :
    Except String (Warehouse × Nat) :=
  match parse_table_name destination with
  | none => Except.error ("Invalid table name: " ++ destination)
  | some (database, schema0, table) =>
    let temporary_table := table ++ "__loader_tmp"
    let schema := qualifySchema database schema0
    let tmpKey := schema ++ "." ++ temporary_table
    let finalKey := schema ++ "." ++ table
    let r := loadLoop field_info tmpKey (whDropIfExists wh tmpKey) chunks
    let step :=
      if r.2 = 0 then materialize_empty r.1 tmpKey field_info
      else Except.ok r.1
    match step with
    | Except.error e => Except.error e
    | Except.ok wh4 =>
      match cutover wh4 tmpKey finalKey with
      | Except.error e => Except.error e
      | Except.ok wh6 => Except.ok (wh6, r.2)

/-! ## Claim theorems -/

/-- C2: for every request that keeps receiving HTTP 429, `request`
sleeps backoff delays of exactly 30, 45 and 68 time-units in that
order before its three retries, and the 4th consecutive 429 response
is raised as `HttpError` instead of being retried (no further attempt
is made, whatever the server would answer next). -/
theorem sustained_429_backoff_and_raise (rest : List Nat) (rps : ℚ) :
    request (429 :: 429 :: 429 :: 429 :: rest) rps
      = some ⟨[30, 45, 68], none, ReqOutcome.raised 429⟩ := by
  simp [request, requestLoop, nextWait]

/-- C3: `read` restarts the scan on `IteratorInvalidated`; on a 4th
consecutive error (after exactly 3 restarts) it re-raises, while at
most 2 consecutive errors followed by a clean full scan return the
complete record list. -/
theorem read_restart_behavior (k : Nat) (hk : k ≤ 2) (records : List PyDict)
    (rest rest' : List ScanResult) :
    read (ScanResult.iterErr :: ScanResult.iterErr :: ScanResult.iterErr ::
          ScanResult.iterErr :: rest) = some (Except.error ()) ∧
    read (List.replicate k ScanResult.iterErr ++ ScanResult.ok records :: rest')
      = some (Except.ok records) := by
  constructor
  · simp [read, readGo]
  · interval_cases k <;> simp [read, readGo, List.replicate]

/-- Witness for C3 at `k = 2` with an empty record list. -/
theorem read_restart_behavior_witness :
    read (List.replicate 2 ScanResult.iterErr ++ ScanResult.ok [] :: [])
      = some (Except.ok []) :=
  (read_restart_behavior 2 (by decide) [] [] []).2

/-- C4 counterexample: the claim says every non-success response other
than the matching 422 propagates as the generic HTTP error — but only
`response.json()` is guarded in `is_iterator_error`, so a 422 whose
payload is the JSON object with `error` set to `null` makes the
unguarded `in` test raise `TypeError`, which propagates instead of the
generic `HTTPError`. -/
theorem iterator_error_generic_propagation_false :
    ¬ ∀ (resp : HttpResponse),
        400 ≤ resp.statusCode ∧ resp.statusCode ≤ 599 →
        iter_chunks_step resp ≠ FetchOutcome.iteratorInvalidated →
        iter_chunks_step resp = FetchOutcome.httpError resp.statusCode := by
  intro h
  have hstep : iter_chunks_step ⟨422, some (Value.obj [("error", Value.null)])⟩
      = FetchOutcome.pyException (PyError.typeError "argument is not iterable") := rfl
  have hcontra := h ⟨422, some (Value.obj [("error", Value.null)])⟩ (by decide)
    (by rw [hstep]; intro hc; exact FetchOutcome.noConfusion hc)
  rw [hstep] at hcontra
  exact FetchOutcome.noConfusion hcontra

/-- C4 as amended: on an error response, the pagination step raises
the distinct `AirtableIteratorError` exactly when the status is 422
and the JSON payload is an object whose `error` entry contains
`LIST_RECORDS_ITERATOR_NOT_AVAILABLE`; when the (unguarded)
payload inspection completes with false the generic HTTP error
propagates, and when it raises — `AttributeError` for a non-object
JSON body, `TypeError` for a null/number/boolean `error` entry — that
exception propagates instead of either error. -/
theorem iterator_error_classification (resp : HttpResponse)
    (h : 400 ≤ resp.statusCode ∧ resp.statusCode ≤ 599) :
    (iter_chunks_step resp = FetchOutcome.iteratorInvalidated ↔
      resp.statusCode = 422 ∧ ∃ fs, resp.jsonBody = some (Value.obj fs) ∧
        pyContains ITERATOR_CODE ((alookup "error" fs).getD (Value.str ""))
          = Except.ok true) ∧
    (is_iterator_error resp = Except.ok false →
      iter_chunks_step resp = FetchOutcome.httpError resp.statusCode) ∧
    (∀ e, is_iterator_error resp = Except.error e →
      iter_chunks_step resp = FetchOutcome.pyException e) := by
  have hstep : iter_chunks_step resp
      = match is_iterator_error resp with
        | Except.error e => FetchOutcome.pyException e
        | Except.ok true => FetchOutcome.iteratorInvalidated
        | Except.ok false => FetchOutcome.httpError resp.statusCode := by
    unfold iter_chunks_step
    rw [if_pos h]
  have hiff : is_iterator_error resp = Except.ok true ↔
      (resp.statusCode = 422 ∧ ∃ fs, resp.jsonBody = some (Value.obj fs) ∧
        pyContains ITERATOR_CODE ((alookup "error" fs).getD (Value.str ""))
          = Except.ok true) := by
    unfold is_iterator_error
    by_cases h422 : resp.statusCode = 422
    · rw [if_pos h422]
      rcases hb : resp.jsonBody with _ | data
      · simp
      · cases data with
        | obj fs =>
          show pyContains ITERATOR_CODE ((alookup "error" fs).getD (Value.str ""))
              = Except.ok true ↔ _
          constructor
          · intro hok
            exact ⟨h422, fs, rfl, hok⟩
          · rintro ⟨-, fs', hfs, hp⟩
            injection hfs with hfs1
            injection hfs1 with hfs2
            subst hfs2
            exact hp
        | null => simp [dataGet]
        | bool b => simp [dataGet]
        | num q => simp [dataGet]
        | str s => simp [dataGet]
        | arr xs => simp [dataGet]
    · rw [if_neg h422]
      simp [h422]
  refine ⟨?_, ?_, ?_⟩
  · rw [hstep]
    rcases hie : is_iterator_error resp with e | b
    · exact iff_of_false (fun hc => FetchOutcome.noConfusion hc)
        (fun hr => by
          have hx := hiff.mpr hr
          rw [hie] at hx
          exact Except.noConfusion hx)
    · cases b
      · exact iff_of_false (fun hc => FetchOutcome.noConfusion hc)
          (fun hr => by
            have hx := hiff.mpr hr
            rw [hie] at hx
            injection hx with hx1
            exact Bool.noConfusion hx1)
      · exact iff_of_true rfl (hiff.mp hie)
  · intro hfalse
    rw [hstep, hfalse]
  · intro e he
    rw [hstep, he]

/-- Witness for C4 (amended): a 422 response whose object payload
names the iterator code in its `error` entry is classified as the
distinct iterator error. -/
theorem iterator_error_classification_witness :
    iter_chunks_step ⟨422, some (Value.obj [("error", Value.str ITERATOR_CODE)])⟩
      = FetchOutcome.iteratorInvalidated :=
  (iterator_error_classification
      ⟨422, some (Value.obj [("error", Value.str ITERATOR_CODE)])⟩
      (by decide)).1.mpr
    ⟨rfl, [("error", Value.str ITERATOR_CODE)], rfl, rfl⟩

/-- C7 counterexample: `result_to_df` canonicalizes the column names,
so the zero-record frame for an empty FieldInfo has columns
`[id, createdtime]`, not `[id, createdTime]`: the literal column
`createdTime` is not in the column set, refuting the claimed column
set `\x7bid\x7d ∪ FieldInfo.keys() ∪ \x7bcreatedTime\x7d`. -/
theorem result_to_df_columns_not_raw :
    (result_to_df [] []).columns ≠ ["id", "createdTime"] ∧
    "createdTime" ∉ (result_to_df [] []).columns := by
  constructor
  · decide
  · decide

/-- The jsonify fold of `result_to_df` maps an empty row list to an
empty row list. -/
theorem jsonify_fold_nil (cols : List String) (fi : List (String × String)) :
    fi.foldl (fun rows ft =>
      if ft.2 ∈ structuredFieldTypes then applyJsonify cols rows ft.1 else rows) []
      = [] := by
  induction fi with
  | nil => rfl
  | cons p fi ih =>
    rw [List.foldl_cons]
    by_cases hp : p.2 ∈ structuredFieldTypes
    · rw [if_pos hp]
      exact ih
    · rw [if_neg hp]
      exact ih

/-- C7 as amended: shaping zero source records yields a frame with no
rows whose columns are, in order, `id`, the canonicalized
(`rename_column`) FieldInfo keys in their defined order, and
`createdtime` (the canonicalized form of `createdTime`). -/
theorem empty_result_df_columns (fi : List (String × String)) :
    (result_to_df [] fi).rows = [] ∧
    (result_to_df [] fi).columns
      = "id" :: (fi.map (fun p => rename_column p.1) ++ ["createdtime"]) := by
  constructor
  · exact jsonify_fold_nil (["id"] ++ fi.map Prod.fst ++ ["createdTime"]) fi
  · show (["id"] ++ fi.map Prod.fst ++ ["createdTime"]).map rename_column = _
    have hid : rename_column "id" = "id" := by decide
    have hct : rename_column "createdTime" = "createdtime" := by decide
    simp [List.map_append, hid, hct, List.map_map, Function.comp_def]

/-- C8: the repository's own intent (and the spec) is that date/time
values are rendered in a fixed textual format, but the `date` branch
calls `value.isoformat("%m/%d/%Y")` and `date.isoformat` takes no
arguments, so a plain (non-datetime) date value raises `TypeError`
instead of being encoded; `datetime` values are formatted as
intended. -/
theorem date_branch_raises_type_error :
    row_to_record [("d", DbValue.date 2020 7 4)] [("D", ["d"])]
      = Except.error (PyError.typeError "isoformat() takes no arguments") ∧
    row_to_record [("d", DbValue.datetime 2020 7 4 12 30 5)] [("D", ["d"])]
      = Except.ok [("D", AirtableValue.str "07/04/2020 12:30:05")] := by
  exact ⟨rfl, rfl⟩

/-- C9 counterexample: the claim says the throttle sleep of
`1 / requests_per_second_limit` happens unconditionally after the
final response; but on the exhausted-429 path `raise_for_status`
raises before the sleep, so the trace of a sustained-429 request
contains no throttle sleep. -/
theorem throttle_sleep_not_unconditional :
    ¬ ∀ (statuses : List Nat) (rps : ℚ) (trace : RequestTrace),
        request statuses rps = some trace →
          trace.throttleSleep = some (1 / rps) := by
  intro h
  have := h [429, 429, 429, 429] 5 ⟨[30, 45, 68], none, ReqOutcome.raised 429⟩ rfl
  simp at this

/-- C9 as amended: `request` sleeps exactly
`1 / requests_per_second_limit` after its final response when that
response survives `raise_for_status` (i.e. it is not a 4xx/5xx); when
the final response raises — including the exhausted 429 retry budget —
the exception propagates before the throttle sleep, so no throttle
sleep occurs. -/
theorem throttle_sleep_iff_success (statuses : List Nat) (rps : ℚ)
    (trace : RequestTrace) (h : request statuses rps = some trace) :
    trace.throttleSleep = match trace.outcome with
      | ReqOutcome.raised _ => none
      | ReqOutcome.ok _ => some (1 / rps) := by
  unfold request at h
  rcases hl : requestLoop statuses 0 30 with _ | ⟨ws, s⟩ <;> rw [hl] at h <;>
    dsimp only at h
  · exact absurd h (by simp)
  · by_cases hs : 400 ≤ s ∧ s ≤ 599
    · rw [if_pos hs] at h
      cases h
      rfl
    · rw [if_neg hs] at h
      cases h
      rfl

/-- Witness for C9 (amended): a single 200 response sleeps the
throttle delay. -/
theorem throttle_sleep_iff_success_witness :
    RequestTrace.throttleSleep ⟨[], some (1 / 5), ReqOutcome.ok 200⟩ = some (1 / (5 : ℚ)) :=
  throttle_sleep_iff_success [200] 5 ⟨[], some (1 / 5), ReqOutcome.ok 200⟩ rfl

/-! ### Lemmas about `chunked` and `write` -/

theorem chunked_nil {α : Type} (n : Nat) : chunked ([] : List α) n = [] := by
  unfold chunked
  rcases Nat.eq_zero_or_pos n with h0 | hpos
  · subst h0
    show chunkedGo 0 ((0 : Nat) / 0) ([] : List α) = []
    rw [Nat.zero_div]
    rfl
  · rw [List.length_nil]
    have h : (0 + n - 1) / n = 0 := Nat.div_eq_of_lt (by omega)
    rw [h]
    rfl

theorem chunked_cons {α : Type} (l : List α) (n : Nat) (hn : 0 < n) (hl : l ≠ []) :
    chunked l n = l.take n :: chunked (l.drop n) n := by
  have hL : 0 < l.length := List.length_pos.mpr hl
  have hc : (l.length + n - 1) / n = ((l.drop n).length + n - 1) / n + 1 := by
    rw [List.length_drop]
    rcases le_or_lt l.length n with hle | hlt
    · have h1 : l.length - n = 0 := by omega
      have h2 : (0 + n - 1) / n = 0 := Nat.div_eq_of_lt (by omega)
      rw [h1, h2]
      exact Nat.div_eq_of_lt_le (by omega) (by omega)
    · have h1 : l.length - n + n - 1 = l.length - 1 := by omega
      have h2 : l.length + n - 1 = l.length - 1 + n := by omega
      rw [h1, h2, Nat.add_div_right _ hn]
  unfold chunked
  rw [hc]
  rfl

theorem chunkedGo_length {α : Type} (n : Nat) :
    ∀ (c : Nat) (l : List α), (chunkedGo n c l).length = c := by
  intro c
  induction c with
  | zero => intro l; rfl
  | succ c ih => intro l; simp [chunkedGo, ih]

theorem chunked_length {α : Type} (seq : List α) (n : Nat) :
    (chunked seq n).length = (seq.length + n - 1) / n :=
  chunkedGo_length n _ seq

theorem chunked_flatten {α : Type} (n : Nat) (hn : 0 < n) (l : List α) :
    (chunked l n).flatten = l := by
  have main : ∀ (N : Nat) (l : List α), l.length ≤ N → (chunked l n).flatten = l := by
    intro N
    induction N with
    | zero =>
      intro l h
      have h0 : l = [] := List.eq_nil_of_length_eq_zero (Nat.le_zero.mp h)
      subst h0
      rw [chunked_nil]
      rfl
    | succ N ih =>
      intro l h
      by_cases hl : l = []
      · subst hl
        rw [chunked_nil]
        rfl
      · rw [chunked_cons l n hn hl, List.flatten_cons,
          ih (l.drop n) (by rw [List.length_drop]; omega)]
        exact List.take_append_drop n l
  exact main l.length l le_rfl

theorem chunked_sizes_25_10 {α : Type} (l : List α) (h : l.length = 25) :
    (chunked l 10).map List.length = [10, 10, 5] := by
  have h1 : l ≠ [] := by intro h'; rw [h'] at h; simp at h
  rw [chunked_cons l 10 (by norm_num) h1]
  have hd1 : (l.drop 10).length = 15 := by rw [List.length_drop, h]
  have h2 : l.drop 10 ≠ [] := by intro h'; rw [h'] at hd1; simp at hd1
  rw [chunked_cons _ 10 (by norm_num) h2]
  have hd2 : ((l.drop 10).drop 10).length = 5 := by rw [List.length_drop, hd1]
  have h3 : (l.drop 10).drop 10 ≠ [] := by intro h'; rw [h'] at hd2; simp at hd2
  rw [chunked_cons _ 10 (by norm_num) h3]
  have hd3 : ((l.drop 10).drop 10).drop 10 = [] := by
    apply List.eq_nil_of_length_eq_zero
    rw [List.length_drop, hd2]
  rw [hd3, chunked_nil]
  simp [List.length_take, h, hd1, hd2]

theorem writeChunks_append_eq (cs : List (List PyDict)) :
    writeChunks "post" build_append_payload cs
      = some (cs.map (fun c =>
          ⟨"post", ⟨c.map (fun r => ⟨none, r⟩), true⟩⟩), cs.flatten) := by
  induction cs with
  | nil => rfl
  | cons c cs ih => simp [writeChunks, build_append_payload, ih]

theorem build_update_envelopes_of_ids (rs : List PyDict)
    (h : ∀ r ∈ rs, (alookup "id" r).isSome) :
    build_update_envelopes rs
      = some (rs.map (fun r => ⟨alookup "id" r, dictErase "id" r⟩)) := by
  induction rs with
  | nil => rfl
  | cons r rs ih =>
    obtain ⟨v, hv⟩ := Option.isSome_iff_exists.mp (h r (List.mem_cons_self r rs))
    simp only [build_update_envelopes, hv,
      ih (fun x hx => h x (List.mem_cons_of_mem r hx))]
    simp [hv]

theorem writeChunks_update_eq (cs : List (List PyDict))
    (h : ∀ c ∈ cs, ∀ r ∈ c, (alookup "id" r).isSome) :
    writeChunks "patch" build_update_payload cs
      = some (cs.map (fun c =>
          ⟨"patch", ⟨c.map (fun r => ⟨alookup "id" r, dictErase "id" r⟩), true⟩⟩),
          cs.flatten.map (dictErase "id")) := by
  induction cs with
  | nil => rfl
  | cons c cs ih =>
    have hb := build_update_envelopes_of_ids c (h c (List.mem_cons_self c cs))
    simp only [writeChunks, build_update_payload, hb,
      ih (fun x hx => h x (List.mem_cons_of_mem c hx))]
    simp [List.flatten_cons, List.map_map, Function.comp_def, List.map_append]

theorem alookup_dictErase {α : Type} (k : String) (d : List (String × α)) :
    alookup k (dictErase k d) = none := by
  induction d with
  | nil => rfl
  | cons p d ih =>
    by_cases hp : p.1 = k
    · simpa [dictErase, List.filter_cons, hp] using ih
    · simpa [dictErase, List.filter_cons, hp, alookup] using ih

/-- C5: append-mode `write` splits the records into consecutive,
order-preserving chunks of the configured size, issuing exactly
`⌈n / size⌉` requests — 25 records at size 10 give exactly 3 requests
of sizes 10, 10, 5 — each a `POST` with `typecast: true` and no `id`
in any record envelope, and the envelopes' fields concatenate back to
the input records. -/
theorem append_write_requests (records : List PyDict) (n : Nat) (hn : 0 < n) :
    ∃ reqs, write records n false = some (reqs, records) ∧
      reqs.length = (records.length + n - 1) / n ∧
      (reqs.map (fun rq => rq.payload.records.map RecordEnvelope.fields)).flatten
        = records ∧
      (∀ rq ∈ reqs, rq.method = "post" ∧ rq.payload.typecast = true ∧
        ∀ env ∈ rq.payload.records, env.id = none) ∧
      (records.length = 25 → n = 10 →
        reqs.map (fun rq => rq.payload.records.length) = [10, 10, 5]) := by
  refine ⟨(chunked records n).map (fun c =>
      ⟨"post", ⟨c.map (fun r => ⟨none, r⟩), true⟩⟩), ?_, ?_, ?_, ?_, ?_⟩
  · show writeChunks "post" build_append_payload (chunked records n) = _
    rw [writeChunks_append_eq, chunked_flatten n hn records]
  · simp [chunked_length]
  · have : ((chunked records n).map (fun c =>
        (⟨"post", ⟨c.map (fun r => (⟨none, r⟩ : RecordEnvelope)), true⟩⟩ :
          Request))).map (fun rq => rq.payload.records.map RecordEnvelope.fields)
        = (chunked records n).map (fun c => c) := by
      simp [List.map_map, Function.comp_def]
    rw [this]
    simp [chunked_flatten n hn records]
  · intro rq hrq
    obtain ⟨c, _, rfl⟩ := List.mem_map.mp hrq
    refine ⟨rfl, rfl, ?_⟩
    intro env henv
    obtain ⟨r, _, rfl⟩ := List.mem_map.mp henv
    rfl
  · intro h25 h10
    subst h10
    simp only [List.map_map, Function.comp_def, List.length_map]
    exact chunked_sizes_25_10 records h25

/-- Witness for C5: 25 empty records at chunk size 10. -/
theorem append_write_requests_witness :
    (0 < 10) ∧ ∃ reqs,
      write (List.replicate 25 ([] : PyDict)) 10 false
        = some (reqs, List.replicate 25 ([] : PyDict)) :=
  ⟨by decide, by
    obtain ⟨reqs, h, -, -, -, -⟩ :=
      append_write_requests (List.replicate 25 ([] : PyDict)) 10 (by decide)
    exact ⟨reqs, h⟩⟩

/-- C6: when every record carries an `id`, update-mode `write` issues
`PATCH` requests with `typecast: true` whose envelopes place each
record's `id` outside the `fields` object, with the `id` removed from
the `fields` body. -/
theorem update_write_envelopes (records : List PyDict) (n : Nat) (hn : 0 < n)
    (hids : ∀ r ∈ records, (alookup "id" r).isSome) :
    ∃ reqs post, write records n true = some (reqs, post) ∧
      (∀ rq ∈ reqs, rq.method = "patch" ∧ rq.payload.typecast = true) ∧
      (reqs.map (fun rq => rq.payload.records)).flatten
        = records.map (fun r => ⟨alookup "id" r, dictErase "id" r⟩) ∧
      (∀ rq ∈ reqs, ∀ env ∈ rq.payload.records,
        env.id.isSome ∧ alookup "id" env.fields = none) := by
  have hmem : ∀ c ∈ chunked records n, ∀ r ∈ c, (alookup "id" r).isSome := by
    intro c hc r hr
    exact hids r (by
      rw [← chunked_flatten n hn records]
      exact List.mem_flatten.mpr ⟨c, hc, hr⟩)
  refine ⟨(chunked records n).map (fun c =>
      ⟨"patch", ⟨c.map (fun r => ⟨alookup "id" r, dictErase "id" r⟩), true⟩⟩),
      records.map (dictErase "id"), ?_, ?_, ?_, ?_⟩
  · show writeChunks "patch" build_update_payload (chunked records n) = _
    rw [writeChunks_update_eq _ hmem, chunked_flatten n hn records]
  · intro rq hrq
    obtain ⟨c, _, rfl⟩ := List.mem_map.mp hrq
    exact ⟨rfl, rfl⟩
  · rw [List.map_map]
    have : ((fun rq : Request => rq.payload.records) ∘ fun (c : List PyDict) =>
        (⟨"patch", ⟨c.map (fun r => (⟨alookup "id" r, dictErase "id" r⟩ :
          RecordEnvelope)), true⟩⟩ : Request))
        = fun (c : List PyDict) => c.map (fun r => (⟨alookup "id" r, dictErase "id" r⟩ :
          RecordEnvelope)) := rfl
    rw [this, ← List.map_flatten, chunked_flatten n hn records]
  · intro rq hrq env henv
    obtain ⟨c, hc, rfl⟩ := List.mem_map.mp hrq
    obtain ⟨r, hr, rfl⟩ := List.mem_map.mp henv
    exact ⟨hmem c hc r hr, alookup_dictErase "id" r⟩

/-- Witness for C6: one record carrying an `id`. -/
theorem update_write_envelopes_witness :
    (0 < 10) ∧
    (∀ r ∈ [[("id", Value.str "x"), ("a", Value.num 1)]], (alookup "id" r).isSome) ∧
    ∃ reqs post,
      write [[("id", Value.str "x"), ("a", Value.num 1)]] 10 true = some (reqs, post) :=
  ⟨by decide, by decide, by
    obtain ⟨reqs, post, h, -, -, -⟩ :=
      update_write_envelopes [[("id", Value.str "x"), ("a", Value.num 1)]] 10
        (by decide) (by decide)
    exact ⟨reqs, post, h⟩⟩

/-- C10: update-mode `write` mutates its input in place: the caller's
record dicts, after the call, no longer contain their `id` key,
because `build_update_payload` destructively pops the `id` while
building the request body. -/
theorem update_write_pops_input_ids (records : List PyDict) (n : Nat) (hn : 0 < n)
    (hids : ∀ r ∈ records, (alookup "id" r).isSome) :
    ∃ reqs, write records n true = some (reqs, records.map (dictErase "id")) ∧
      ∀ r ∈ records.map (dictErase "id"), alookup "id" r = none := by
  have hmem : ∀ c ∈ chunked records n, ∀ r ∈ c, (alookup "id" r).isSome := by
    intro c hc r hr
    exact hids r (by
      rw [← chunked_flatten n hn records]
      exact List.mem_flatten.mpr ⟨c, hc, hr⟩)
  refine ⟨(chunked records n).map (fun c =>
      ⟨"patch", ⟨c.map (fun r => ⟨alookup "id" r, dictErase "id" r⟩), true⟩⟩), ?_, ?_⟩
  · show writeChunks "patch" build_update_payload (chunked records n) = _
    rw [writeChunks_update_eq _ hmem, chunked_flatten n hn records]
  · intro r hr
    obtain ⟨r0, _, rfl⟩ := List.mem_map.mp hr
    exact alookup_dictErase "id" r0

/-- Witness for C10: after an update-mode write of one record holding
an `id`, the caller's dict has lost its `id` key. -/
theorem update_write_pops_input_ids_witness :
    (0 < 5) ∧
    (∀ r ∈ [[("id", Value.str "rec1")]], (alookup "id" r).isSome) ∧
    ∃ reqs, write [[("id", Value.str "rec1")]] 5 true
      = some (reqs, [[("id", Value.str "rec1")]].map (dictErase "id")) :=
  ⟨by decide, by decide, by
    obtain ⟨reqs, h, -⟩ :=
      update_write_pops_input_ids [[("id", Value.str "rec1")]] 5 (by decide) (by decide)
    exact ⟨reqs, h⟩⟩

/-! ### Lemmas about association-list lookup and warehouse operations -/

theorem alookup_cons_self {α : Type} (k : String) (v : α) (d : List (String × α)) :
    alookup k ((k, v) :: d) = some v := by
  simp [alookup]

theorem alookup_eq_none_iff {α : Type} (k : String) (d : List (String × α)) :
    alookup k d = none ↔ k ∉ d.map Prod.fst := by
  induction d with
  | nil => simp [alookup]
  | cons p d ih =>
    rw [alookup, List.map_cons, List.mem_cons]
    by_cases hp : p.1 = k
    · rw [if_pos hp]
      simp [hp]
    · rw [if_neg hp, ih]
      constructor
      · intro h1 h2
        rcases h2 with he | hm
        · exact hp he.symm
        · exact h1 hm
      · intro h2 hm
        exact h2 (Or.inr hm)

theorem alookup_append_of_none {α : Type} (k : String) (d e : List (String × α))
    (h : alookup k d = none) : alookup k (d ++ e) = alookup k e := by
  induction d with
  | nil => rfl
  | cons p d ih =>
    by_cases hp : p.1 = k
    · rw [alookup, if_pos hp] at h
      cases h
    · rw [alookup, if_neg hp] at h
      rw [List.cons_append, alookup, if_neg hp]
      exact ih h

theorem alookup_append_of_some {α : Type} (k : String) (d e : List (String × α))
    (v : α) (h : alookup k d = some v) : alookup k (d ++ e) = some v := by
  induction d with
  | nil => cases h
  | cons p d ih =>
    by_cases hp : p.1 = k
    · rw [alookup, if_pos hp] at h
      rw [List.cons_append, alookup, if_pos hp]
      exact h
    · rw [alookup, if_neg hp] at h
      rw [List.cons_append, alookup, if_neg hp]
      exact ih h

theorem alookup_dictErase_ne {α : Type} (k k' : String) (d : List (String × α))
    (h : k' ≠ k) : alookup k' (dictErase k d) = alookup k' d := by
  induction d with
  | nil => rfl
  | cons p d ih =>
    simp only [dictErase, List.filter_cons] at ih ⊢
    by_cases hp : p.1 = k
    · rw [if_neg (by simp [hp]), ih]
      simp only [alookup]
      rw [if_neg (fun (he : p.1 = k') => h (he ▸ hp))]
    · rw [if_pos (by simp [hp])]
      simp only [alookup]
      by_cases hpk : p.1 = k'
      · rw [if_pos hpk, if_pos hpk]
      · rw [if_neg hpk, if_neg hpk]
        exact ih

/-- Lookup after a value-updating map (the shape shared by
`whAppend` on an existing table and `whDeleteFrom`). -/
theorem alookup_map_update_self {α : Type} (k : String) (f : α → α)
    (d : List (String × α)) (v : α) (h : alookup k d = some v) :
    alookup k (d.map (fun p => if p.1 = k then (p.1, f p.2) else p)) = some (f v) := by
  induction d with
  | nil => cases h
  | cons p d ih =>
    by_cases hp : p.1 = k
    · rw [alookup, if_pos hp] at h
      cases h
      rw [List.map_cons, if_pos hp, alookup, if_pos hp]
    · rw [alookup, if_neg hp] at h
      rw [List.map_cons, if_neg hp, alookup, if_neg hp]
      exact ih h

theorem alookup_map_update_ne {α : Type} (k k' : String) (f : α → α)
    (d : List (String × α)) (h : k' ≠ k) :
    alookup k' (d.map (fun p => if p.1 = k then (p.1, f p.2) else p)) = alookup k' d := by
  induction d with
  | nil => rfl
  | cons p d ih =>
    by_cases hp : p.1 = k
    · rw [List.map_cons, if_pos hp, alookup, alookup]
      by_cases hpk : p.1 = k'
      · exact absurd (hpk ▸ hp) (fun he => h he)
      · rw [if_neg hpk, if_neg hpk]
        exact ih
    · rw [List.map_cons, if_neg hp, alookup, alookup]
      by_cases hpk : p.1 = k'
      · rw [if_pos hpk, if_pos hpk]
      · rw [if_neg hpk, if_neg hpk]
        exact ih

theorem keys_map_update {α : Type} (k : String) (f : α → α)
    (d : List (String × α)) :
    (d.map (fun p => if p.1 = k then (p.1, f p.2) else p)).map Prod.fst
      = d.map Prod.fst := by
  induction d with
  | nil => rfl
  | cons p d ih =>
    by_cases hp : p.1 = k
    · simp [hp, ih]
    · simp [hp, ih]

theorem keys_filter_nodup {α : Type} (d : List (String × α))
    (f : String × α → Bool) (h : (d.map Prod.fst).Nodup) :
    ((d.filter f).map Prod.fst).Nodup :=
  List.Nodup.sublist (List.Sublist.map Prod.fst (List.filter_sublist d)) h

theorem whLookup_whAppend_self (wh : Warehouse) (k : String) (rows : Table) :
    whLookup (whAppend wh k rows) k = some ((whLookup wh k).getD [] ++ rows) := by
  unfold whAppend
  rcases h : whLookup wh k with _ | t
  · show alookup k (wh ++ [(k, rows)]) = _
    rw [alookup_append_of_none k wh _ h, alookup_cons_self]
    rfl
  · show alookup k (wh.map fun p => if p.1 = k then (p.1, p.2 ++ rows) else p) = _
    rw [alookup_map_update_self k (fun t => t ++ rows) wh t h]
    rfl

theorem whLookup_whAppend_ne (wh : Warehouse) (k k' : String) (rows : Table)
    (h : k' ≠ k) : whLookup (whAppend wh k rows) k' = whLookup wh k' := by
  unfold whAppend
  rcases hk : whLookup wh k with _ | t
  · show alookup k' (wh ++ [(k, rows)]) = _
    rcases h' : alookup k' wh with _ | v
    · rw [alookup_append_of_none k' wh _ h']
      show (if k = k' then some rows else alookup k' []) = whLookup wh k'
      rw [if_neg (fun he => h he.symm)]
      exact h'.symm
    · rw [alookup_append_of_some k' wh [(k, rows)] v h']
      exact h'.symm
  · exact alookup_map_update_ne k k' (fun t => t ++ rows) wh h

theorem whAppend_keys_nodup (wh : Warehouse) (k : String) (rows : Table)
    (h : (wh.map Prod.fst).Nodup) :
    ((whAppend wh k rows).map Prod.fst).Nodup := by
  unfold whAppend
  rcases hk : whLookup wh k with _ | t
  · show ((wh ++ [(k, rows)]).map Prod.fst).Nodup
    rw [List.map_append, List.nodup_append]
    refine ⟨h, List.nodup_singleton k, ?_⟩
    intro a ha hb
    have hak : a = k := by simpa using hb
    subst hak
    exact (alookup_eq_none_iff a wh).mp hk ha
  · show (((wh.map fun p => if p.1 = k then (p.1, p.2 ++ rows) else p)).map Prod.fst).Nodup
    rw [keys_map_update k (fun t => t ++ rows) wh]
    exact h

theorem alookup_swapMap_left (a b : String) (ta tb : Table) (d : Warehouse)
    (hne : a ≠ b) :
    alookup a (d.map (fun p => if p.1 = a then (a, tb) else if p.1 = b then (b, ta) else p))
      = (alookup a d).map (fun _ => tb) := by
  induction d with
  | nil => rfl
  | cons p d ih =>
    rw [List.map_cons]
    by_cases hpa : p.1 = a
    · rw [if_pos hpa]
      simp only [alookup]
      rw [if_pos trivial, if_pos hpa]
      rfl
    · rw [if_neg hpa]
      by_cases hpb : p.1 = b
      · rw [if_pos hpb]
        simp only [alookup]
        rw [if_neg (fun (he : b = a) => hne he.symm), if_neg hpa]
        exact ih
      · rw [if_neg hpb]
        simp only [alookup]
        rw [if_neg hpa, if_neg hpa]
        exact ih

theorem alookup_swapMap_right (a b : String) (ta tb : Table) (d : Warehouse)
    (hne : a ≠ b) :
    alookup b (d.map (fun p => if p.1 = a then (a, tb) else if p.1 = b then (b, ta) else p))
      = (alookup b d).map (fun _ => ta) := by
  induction d with
  | nil => rfl
  | cons p d ih =>
    rw [List.map_cons]
    by_cases hpa : p.1 = a
    · rw [if_pos hpa]
      simp only [alookup]
      rw [if_neg (fun (he : a = b) => hne he),
        if_neg (fun (he : p.1 = b) => hne ((hpa.symm.trans he)))]
      exact ih
    · rw [if_neg hpa]
      by_cases hpb : p.1 = b
      · rw [if_pos hpb]
        simp only [alookup]
        rw [if_pos trivial, if_pos hpb]
        rfl
      · rw [if_neg hpb]
        simp only [alookup]
        rw [if_neg hpb, if_neg hpb]
        exact ih

theorem alookup_swapMap_other (a b k : String) (ta tb : Table) (d : Warehouse)
    (hka : k ≠ a) (hkb : k ≠ b) :
    alookup k (d.map (fun p => if p.1 = a then (a, tb) else if p.1 = b then (b, ta) else p))
      = alookup k d := by
  induction d with
  | nil => rfl
  | cons p d ih =>
    rw [List.map_cons]
    by_cases hpa : p.1 = a
    · rw [if_pos hpa]
      simp only [alookup]
      rw [if_neg (fun (he : a = k) => hka he.symm),
        if_neg (fun (he : p.1 = k) => hka (he.symm.trans hpa))]
      exact ih
    · rw [if_neg hpa]
      by_cases hpb : p.1 = b
      · rw [if_pos hpb]
        simp only [alookup]
        rw [if_neg (fun (he : b = k) => hkb he.symm),
          if_neg (fun (he : p.1 = k) => hkb (he.symm.trans hpb))]
        exact ih
      · rw [if_neg hpb]
        simp only [alookup]
        by_cases hpk : p.1 = k
        · rw [if_pos hpk, if_pos hpk]
        · rw [if_neg hpk, if_neg hpk]
          exact ih

theorem keys_swapMap (a b : String) (ta tb : Table) (d : Warehouse) :
    (d.map (fun p => if p.1 = a then (a, tb) else if p.1 = b then (b, ta) else p)).map
        Prod.fst
      = d.map Prod.fst := by
  induction d with
  | nil => rfl
  | cons p d ih =>
    rw [List.map_cons, List.map_cons, List.map_cons]
    by_cases hpa : p.1 = a
    · rw [if_pos hpa, ih, hpa]
    · rw [if_neg hpa]
      by_cases hpb : p.1 = b
      · rw [if_pos hpb, ih, hpb]
      · rw [if_neg hpb, ih]

theorem alookup_renameMap_target (a b : String) (d : Warehouse)
    (hb : alookup b d = none) :
    alookup b (d.map (fun p => if p.1 = a then (b, p.2) else p)) = alookup a d := by
  induction d with
  | nil => rfl
  | cons p d ih =>
    rw [alookup] at hb
    by_cases hpb : p.1 = b
    · rw [if_pos hpb] at hb
      cases hb
    · rw [if_neg hpb] at hb
      rw [List.map_cons]
      by_cases hpa : p.1 = a
      · rw [if_pos hpa]
        simp only [alookup]
        rw [if_pos trivial, if_pos hpa]
      · rw [if_neg hpa]
        simp only [alookup]
        rw [if_neg hpb, if_neg hpa]
        exact ih hb

theorem alookup_renameMap_source (a b : String) (d : Warehouse) (hne : a ≠ b) :
    alookup a (d.map (fun p => if p.1 = a then (b, p.2) else p)) = none := by
  induction d with
  | nil => rfl
  | cons p d ih =>
    rw [List.map_cons]
    by_cases hpa : p.1 = a
    · rw [if_pos hpa]
      simp only [alookup]
      rw [if_neg (fun (he : b = a) => hne he.symm)]
      exact ih
    · rw [if_neg hpa]
      simp only [alookup]
      rw [if_neg hpa]
      exact ih

theorem alookup_renameMap_other (a b k : String) (d : Warehouse)
    (hka : k ≠ a) (hkb : k ≠ b) :
    alookup k (d.map (fun p => if p.1 = a then (b, p.2) else p)) = alookup k d := by
  induction d with
  | nil => rfl
  | cons p d ih =>
    rw [List.map_cons]
    by_cases hpa : p.1 = a
    · rw [if_pos hpa]
      simp only [alookup]
      rw [if_neg (fun (he : b = k) => hkb he.symm),
        if_neg (fun (he : p.1 = k) => hka (he.symm.trans hpa))]
      exact ih
    · rw [if_neg hpa]
      simp only [alookup]
      by_cases hpk : p.1 = k
      · rw [if_pos hpk, if_pos hpk]
      · rw [if_neg hpk, if_neg hpk]
        exact ih

theorem keys_renameMap (a b : String) (d : Warehouse) :
    (d.map (fun p => if p.1 = a then (b, p.2) else p)).map Prod.fst
      = (d.map Prod.fst).map (fun x => if x = a then b else x) := by
  induction d with
  | nil => rfl
  | cons p d ih =>
    rw [List.map_cons, List.map_cons, List.map_cons, List.map_cons]
    by_cases hpa : p.1 = a
    · rw [if_pos hpa, if_pos hpa, ih]
    · rw [if_neg hpa, if_neg hpa, ih]

theorem nodup_rename_keys (a b : String) (l : List String)
    (hnd : l.Nodup) (hb : b ∉ l) :
    (l.map (fun x => if x = a then b else x)).Nodup := by
  induction l with
  | nil => simp
  | cons x l ih =>
    rw [List.map_cons, List.nodup_cons]
    rw [List.nodup_cons] at hnd
    have hbl : b ∉ l := fun h => hb (List.mem_cons_of_mem x h)
    refine ⟨?_, ih hnd.2 hbl⟩
    intro hmem
    obtain ⟨y, hy, hyx⟩ := List.mem_map.mp hmem
    by_cases hxa : x = a
    · rw [if_pos hxa] at hyx
      by_cases hya : y = a
      · subst hya
        subst hxa
        exact hnd.1 hy
      · rw [if_neg hya] at hyx
        subst hyx
        exact hbl hy
    · rw [if_neg hxa] at hyx
      by_cases hya : y = a
      · rw [if_pos hya] at hyx
        subst hyx
        exact hb (List.mem_cons_self _ l)
      · rw [if_neg hya] at hyx
        subst hyx
        exact hnd.1 hy

theorem whSwap_spec (wh : Warehouse) (a b : String) (ta tb : Table)
    (hne : a ≠ b) (ha : whLookup wh a = some ta) (hb : whLookup wh b = some tb) :
    ∃ wh5, whSwap wh a b = Except.ok wh5 ∧
      whLookup wh5 a = some tb ∧ whLookup wh5 b = some ta ∧
      (∀ k, k ≠ a → k ≠ b → whLookup wh5 k = whLookup wh k) ∧
      wh5.map Prod.fst = wh.map Prod.fst := by
  refine ⟨wh.map (fun p => if p.1 = a then (a, tb) else if p.1 = b then (b, ta) else p),
    ?_, ?_, ?_, ?_, ?_⟩
  · unfold whSwap
    rw [ha, hb]
  · show alookup a _ = some tb
    rw [alookup_swapMap_left a b ta tb wh hne]
    rw [show alookup a wh = some ta from ha]
    rfl
  · show alookup b _ = some ta
    rw [alookup_swapMap_right a b ta tb wh hne]
    rw [show alookup b wh = some tb from hb]
    rfl
  · intro k hka hkb
    exact alookup_swapMap_other a b k ta tb wh hka hkb
  · exact keys_swapMap a b ta tb wh

theorem whDrop_spec (wh : Warehouse) (a : String) (t : Table)
    (h : whLookup wh a = some t) :
    ∃ wh', whDrop wh a = Except.ok wh' ∧
      whLookup wh' a = none ∧
      (∀ k, k ≠ a → whLookup wh' k = whLookup wh k) ∧
      ((wh.map Prod.fst).Nodup → (wh'.map Prod.fst).Nodup) := by
  unfold whDrop
  rw [if_pos (by unfold table_exists; rw [h]; rfl)]
  refine ⟨_, rfl, ?_, ?_, ?_⟩
  · exact alookup_dictErase a wh
  · intro k hk
    exact alookup_dictErase_ne a k wh hk
  · intro hnd
    exact keys_filter_nodup wh _ hnd

theorem whRename_spec (wh : Warehouse) (a b : String) (t : Table)
    (hne : a ≠ b) (ha : whLookup wh a = some t) (hb : whLookup wh b = none) :
    ∃ wh', whRename wh a b = Except.ok wh' ∧
      whLookup wh' b = some t ∧
      whLookup wh' a = none ∧
      (∀ k, k ≠ a → k ≠ b → whLookup wh' k = whLookup wh k) ∧
      ((wh.map Prod.fst).Nodup → (wh'.map Prod.fst).Nodup) := by
  unfold whRename
  rw [if_pos (by unfold table_exists; rw [ha]; rfl),
    if_neg (by unfold table_exists; rw [hb]; simp)]
  refine ⟨_, rfl, ?_, ?_, ?_, ?_⟩
  · show alookup b _ = some t
    rw [alookup_renameMap_target a b wh hb]
    exact ha
  · exact alookup_renameMap_source a b wh hne
  · intro k hka hkb
    exact alookup_renameMap_other a b k wh hka hkb
  · intro hnd
    show ((wh.map fun p => if p.1 = a then (b, p.2) else p).map Prod.fst).Nodup
    rw [keys_renameMap a b wh]
    exact nodup_rename_keys a b (wh.map Prod.fst) hnd
      (fun hm => (alookup_eq_none_iff b wh).mp hb hm)

theorem materialize_empty_spec (wh : Warehouse) (tmpKey : String)
    (fi : List (String × String)) (h : whLookup wh tmpKey = none) :
    ∃ wh4, materialize_empty wh tmpKey fi = Except.ok wh4 ∧
      whLookup wh4 tmpKey = some [] ∧
      (∀ k, k ≠ tmpKey → whLookup wh4 k = whLookup wh k) ∧
      ((wh.map Prod.fst).Nodup → (wh4.map Prod.fst).Nodup) := by
  unfold materialize_empty whCreateFail
  dsimp only
  rw [if_neg (by unfold table_exists; rw [h]; simp)]
  show ∃ wh4, whDeleteFrom (wh ++ [(tmpKey, _)]) tmpKey = Except.ok wh4 ∧ _
  have hlook : whLookup (wh ++ [(tmpKey,
      [(result_to_df [] fi).columns.map (fun _ => (none : Option Value))])]) tmpKey
      = some [(result_to_df [] fi).columns.map (fun _ => (none : Option Value))] := by
    show alookup tmpKey _ = _
    rw [alookup_append_of_none tmpKey wh _ h, alookup_cons_self]
  unfold whDeleteFrom
  rw [if_pos (by unfold table_exists; rw [hlook]; rfl)]
  refine ⟨_, rfl, ?_, ?_, ?_⟩
  · show alookup tmpKey _ = some []
    rw [alookup_map_update_self tmpKey (fun _ => ([] : Table)) _ _ hlook]
  · intro k hk
    show alookup k _ = whLookup wh k
    rw [alookup_map_update_ne tmpKey k (fun _ => ([] : Table)) _ hk]
    show alookup k (wh ++ _) = whLookup wh k
    rcases h' : alookup k wh with _ | v
    · rw [alookup_append_of_none k wh _ h']
      show (if tmpKey = k then _ else alookup k []) = whLookup wh k
      rw [if_neg (fun he => hk he.symm)]
      exact h'.symm
    · rw [alookup_append_of_some k wh _ v h']
      exact h'.symm
  · intro hnd
    rw [keys_map_update tmpKey (fun _ => ([] : Table)) _]
    rw [List.map_append, List.nodup_append]
    refine ⟨hnd, List.nodup_singleton tmpKey, ?_⟩
    intro x hx hx'
    have hxk : x = tmpKey := by simpa using hx'
    subst hxk
    exact (alookup_eq_none_iff x wh).mp h hx

theorem materialize_empty_err (wh : Warehouse) (tmpKey : String)
    (fi : List (String × String)) (t : Table) (h : whLookup wh tmpKey = some t) :
    ∃ e, materialize_empty wh tmpKey fi = Except.error e := by
  unfold materialize_empty whCreateFail
  dsimp only
  rw [if_pos (by unfold table_exists; rw [h]; rfl)]
  exact ⟨_, rfl⟩

theorem loadLoop_lookup_start_some (fi : List (String × String)) (key : String) :
    ∀ (cs : List (List PyDict)) (wh : Warehouse) (t : Table),
      whLookup wh key = some t →
      whLookup (loadLoop fi key wh cs).1 key = some (t ++ loadedRows cs fi) := by
  intro cs
  induction cs with
  | nil =>
    intro wh t h
    show whLookup wh key = some (t ++ loadedRows [] fi)
    rw [h]
    simp [loadedRows]
  | cons c cs ih =>
    intro wh t h
    show whLookup (loadLoop fi key (whAppend wh key (result_to_df c fi).rows) cs).1 key = _
    rw [ih _ (t ++ (result_to_df c fi).rows)
      ((whLookup_whAppend_self wh key _).trans (by rw [h]; rfl))]
    simp [loadedRows, List.append_assoc]

theorem loadLoop_lookup_start_none (fi : List (String × String)) (key : String)
    (cs : List (List PyDict)) (wh : Warehouse) (h : whLookup wh key = none) :
    whLookup (loadLoop fi key wh cs).1 key
      = if cs.isEmpty then none else some (loadedRows cs fi) := by
  cases cs with
  | nil =>
    show whLookup wh key = _
    rw [h]
    rfl
  | cons c cs =>
    rw [if_neg (by simp)]
    show whLookup (loadLoop fi key (whAppend wh key (result_to_df c fi).rows) cs).1 key = _
    rw [loadLoop_lookup_start_some fi key cs _ ((result_to_df c fi).rows)
      ((whLookup_whAppend_self wh key _).trans (by rw [h]; rfl))]
    simp [loadedRows]

theorem loadLoop_lookup_other (fi : List (String × String)) (key k : String)
    (hk : k ≠ key) :
    ∀ (cs : List (List PyDict)) (wh : Warehouse),
      whLookup (loadLoop fi key wh cs).1 k = whLookup wh k := by
  intro cs
  induction cs with
  | nil => intro wh; rfl
  | cons c cs ih =>
    intro wh
    show whLookup (loadLoop fi key (whAppend wh key (result_to_df c fi).rows) cs).1 k = _
    rw [ih, whLookup_whAppend_ne wh key k _ hk]

theorem loadLoop_count (fi : List (String × String)) (key : String) :
    ∀ (cs : List (List PyDict)) (wh : Warehouse),
      (loadLoop fi key wh cs).2 = (loadedRows cs fi).length := by
  intro cs
  induction cs with
  | nil => intro wh; rfl
  | cons c cs ih =>
    intro wh
    show (result_to_df c fi).rows.length
        + (loadLoop fi key (whAppend wh key (result_to_df c fi).rows) cs).2 = _
    rw [ih]
    simp [loadedRows]

theorem loadLoop_keys_nodup (fi : List (String × String)) (key : String) :
    ∀ (cs : List (List PyDict)) (wh : Warehouse),
      (wh.map Prod.fst).Nodup → ((loadLoop fi key wh cs).1.map Prod.fst).Nodup := by
  intro cs
  induction cs with
  | nil => intro wh h; exact h
  | cons c cs ih =>
    intro wh h
    exact ih _ (whAppend_keys_nodup wh key _ h)

theorem cutover_spec (wh : Warehouse) (tmpKey finalKey : String) (rows : Table)
    (hne : tmpKey ≠ finalKey) (hnd : (wh.map Prod.fst).Nodup)
    (htmp : whLookup wh tmpKey = some rows) :
    ∃ wh6, cutover wh tmpKey finalKey = Except.ok wh6 ∧
      whLookup wh6 finalKey = some rows ∧
      whLookup wh6 tmpKey = none ∧
      (wh6.map Prod.fst).Nodup := by
  unfold cutover
  by_cases hex : table_exists wh finalKey
  · rw [if_pos hex]
    obtain ⟨tb, hfin⟩ : ∃ tb, whLookup wh finalKey = some tb := by
      unfold table_exists at hex
      exact Option.isSome_iff_exists.mp hex
    obtain ⟨wh5, hsw, h5a, h5b, h5other, h5keys⟩ :=
      whSwap_spec wh tmpKey finalKey rows tb hne htmp hfin
    rw [hsw]
    obtain ⟨wh6, hdr, h6a, h6other, h6nodup⟩ := whDrop_spec wh5 tmpKey tb h5a
    refine ⟨wh6, hdr, ?_, h6a, h6nodup (h5keys ▸ hnd)⟩
    rw [h6other finalKey (fun he => hne he.symm)]
    exact h5b
  · rw [if_neg hex]
    have hfin : whLookup wh finalKey = none := by
      unfold table_exists at hex
      simpa using hex
    obtain ⟨wh6, hrn, h6b, h6a, h6other, h6nodup⟩ :=
      whRename_spec wh tmpKey finalKey rows hne htmp hfin
    exact ⟨wh6, hrn, h6b, h6a, h6nodup hnd⟩

/-- C1: when `_load_chunks` completes successfully, the warehouse
ends with exactly one table under the final destination name holding
exactly the shaped rows of the loaded chunks (prior contents are
replaced via swap when the destination existed; the table is created
by rename when it did not), and no table under the derived temp name
`<table>__loader_tmp` remains. -/
theorem load_chunks_final_state
    (wh : Warehouse) (chunks : List (List PyDict)) (fi : List (String × String))
    (destination : String) (wh' : Warehouse) (count : Nat)
    (database : Option String) (schema0 table : String)
    (hparse : parse_table_name destination = some (database, schema0, table))
    (hnd : (wh.map Prod.fst).Nodup)
    (hok : _load_chunks wh chunks fi destination = Except.ok (wh', count)) :
    whLookup wh' (qualifySchema database schema0 ++ "." ++ table)
      = some (loadedRows chunks fi) ∧
    (wh'.map Prod.fst).count (qualifySchema database schema0 ++ "." ++ table) = 1 ∧
    whLookup wh' (qualifySchema database schema0 ++ "." ++ (table ++ "__loader_tmp"))
      = none := by
  unfold _load_chunks at hok
  rw [hparse] at hok
  dsimp only at hok
  set tmpKey := qualifySchema database schema0 ++ "." ++ (table ++ "__loader_tmp")
    with htmpKey
  set finalKey := qualifySchema database schema0 ++ "." ++ table with hfinalKey
  have hne : tmpKey ≠ finalKey := by
    rw [htmpKey, hfinalKey]
    intro he
    have hlen := congrArg String.length he
    simp only [String.length_append] at hlen
    have h12 : ("__loader_tmp" : String).length = 12 := rfl
    rw [h12] at hlen
    omega
  have hd_none : whLookup (whDropIfExists wh tmpKey) tmpKey = none :=
    alookup_dictErase tmpKey wh
  have hd_nodup : ((whDropIfExists wh tmpKey).map Prod.fst).Nodup :=
    keys_filter_nodup wh _ hnd
  have hloop_nodup :
      ((loadLoop fi tmpKey (whDropIfExists wh tmpKey) chunks).1.map Prod.fst).Nodup :=
    loadLoop_keys_nodup fi tmpKey chunks _ hd_nodup
  have hloop_count : (loadLoop fi tmpKey (whDropIfExists wh tmpKey) chunks).2
      = (loadedRows chunks fi).length :=
    loadLoop_count fi tmpKey chunks _
  have hloop_tmp := loadLoop_lookup_start_none fi tmpKey chunks _ hd_none
  by_cases hzero : (loadLoop fi tmpKey (whDropIfExists wh tmpKey) chunks).2 = 0
  · rw [if_pos hzero] at hok
    cases chunks with
    | nil =>
      have htmp0 :
          whLookup (loadLoop fi tmpKey (whDropIfExists wh tmpKey) []).1 tmpKey
            = none := by
        simpa using hloop_tmp
      obtain ⟨wh4, hmat, h4tmp, h4other, h4nodup⟩ :=
        materialize_empty_spec _ tmpKey fi htmp0
      rw [hmat] at hok
      dsimp only at hok
      have h4tmp' : whLookup wh4 tmpKey = some (loadedRows [] fi) := h4tmp
      obtain ⟨wh6, hcut, h6fin, h6tmp, h6nodup⟩ :=
        cutover_spec wh4 tmpKey finalKey (loadedRows [] fi) hne
          (h4nodup hloop_nodup) h4tmp'
      rw [hcut] at hok
      dsimp only at hok
      rw [Except.ok.injEq, Prod.mk.injEq] at hok
      obtain ⟨hw, hc⟩ := hok
      subst hw
      refine ⟨h6fin, ?_, h6tmp⟩
      have hmem : finalKey ∈ wh6.map Prod.fst := by
        by_contra hnm
        have hnone : alookup finalKey wh6 = none :=
          (alookup_eq_none_iff finalKey wh6).mpr hnm
        rw [show alookup finalKey wh6 = whLookup wh6 finalKey from rfl, h6fin] at hnone
        cases hnone
      exact List.count_eq_one_of_mem h6nodup hmem
    | cons c cs =>
      have hsome :
          whLookup (loadLoop fi tmpKey (whDropIfExists wh tmpKey) (c :: cs)).1 tmpKey
            = some (loadedRows (c :: cs) fi) := by
        simpa using hloop_tmp
      obtain ⟨e, herr⟩ := materialize_empty_err _ tmpKey fi _ hsome
      rw [herr] at hok
      dsimp only at hok
      cases hok
  · rw [if_neg hzero] at hok
    dsimp only at hok
    have hchunks_ne : chunks ≠ [] := by
      intro h0
      subst h0
      exact hzero (hloop_count.trans rfl)
    have hsome :
        whLookup (loadLoop fi tmpKey (whDropIfExists wh tmpKey) chunks).1 tmpKey
          = some (loadedRows chunks fi) := by
      rw [hloop_tmp, if_neg (by simpa using hchunks_ne)]
    obtain ⟨wh6, hcut, h6fin, h6tmp, h6nodup⟩ :=
      cutover_spec _ tmpKey finalKey (loadedRows chunks fi) hne hloop_nodup hsome
    rw [hcut] at hok
    dsimp only at hok
    rw [Except.ok.injEq, Prod.mk.injEq] at hok
    obtain ⟨hw, hc⟩ := hok
    subst hw
    refine ⟨h6fin, ?_, h6tmp⟩
    have hmem : finalKey ∈ wh6.map Prod.fst := by
      by_contra hnm
      have hnone : alookup finalKey wh6 = none :=
        (alookup_eq_none_iff finalKey wh6).mpr hnm
      rw [show alookup finalKey wh6 = whLookup wh6 finalKey from rfl, h6fin] at hnone
      cases hnone
    exact List.count_eq_one_of_mem h6nodup hmem

/-- Witness for C1: loading one record into an existing destination
`s.t` leaves exactly one table `s.t` holding the shaped row and no
`s.t__loader_tmp`. -/
theorem load_chunks_final_state_witness :
    whLookup [("s.t",
        [[some (Value.str "r1"), some (Value.str "v"), some (Value.str "T")]])] "s.t"
      = some (loadedRows
          [[[("id", Value.str "r1"), ("createdTime", Value.str "T"),
             ("fields", Value.obj [("A", Value.str "v")])]]]
          [("A", "singleLineText")]) ∧
    ([("s.t",
        [[some (Value.str "r1"), some (Value.str "v"), some (Value.str "T")]])].map
        Prod.fst).count "s.t" = 1 ∧
    whLookup [("s.t",
        [[some (Value.str "r1"), some (Value.str "v"), some (Value.str "T")]])]
      "s.t__loader_tmp" = none :=
  load_chunks_final_state [("s.t", [[some (Value.str "old")]])]
    [[[("id", Value.str "r1"), ("createdTime", Value.str "T"),
       ("fields", Value.obj [("A", Value.str "v")])]]]
    [("A", "singleLineText")] "s.t"
    [("s.t", [[some (Value.str "r1"), some (Value.str "v"), some (Value.str "T")]])] 1
    none "s" "t" rfl (by decide) rfl

end AirtableConnector
